import Mathlib

/-!
Verification development for the Entra ID synchronization subsystem of the
app-monitor dashboard. The definitions below are a shallow embedding of
`src/app_monitor/blueprints/company.py` (the `sync_entra` route),
`src/app_monitor/utils/entra_client.py` (the `EntraClient` class) and the
relevant parts of `src/app_monitor/models.py` (the `User`, `EntraIntegration`
and `SSOApplication` models). Machine state (the database, the in-memory
token cache, the outcome of network calls) is passed explicitly; exceptions
are modelled as explicit error branches.
-/

namespace AppMonitor

/-! ## Data model (from src/app_monitor/models.py) -/

/-- One remote application record as returned by the Graph applications
endpoint: the sync reads `id`, `displayName`, and the optional keys
`signInAudience` and `enabled` (company.py lines 181, 188-190). Optional
keys are `Option` because the route accesses them via `dict.get` with a
default. -/
structure AppData where
  id : String
  displayName : String
  signInAudience : Option String
  enabled : Option Bool
deriving DecidableEq, Repr

/-- A row of the `sso_applications` table (models.py lines 117-129), with
the columns read or written by the sync route. The integer primary key is
omitted; `created_at` and `updated_at` carry the column defaults
`datetime.utcnow` applied at insert time, modelled by the instant of the
inserting sync. The `entra_app_id` column is declared `unique=True`
globally, which the commit model below enforces. -/
structure SSOApplication where
  company_id : Nat
  entra_app_id : String
  name : String
  app_type : String
  is_active : Bool
  last_activity : Option Int
  created_at : Int
  updated_at : Int
deriving DecidableEq, Repr

/-- The columns of an `entra_integrations` row (models.py lines 95-109)
touched by the sync route: credentials read at client construction, and the
`last_sync` / `sync_status` pair mutated on a successful sync. -/
structure EntraIntegration where
  tenant_id : String
  client_id : String
  client_secret : String
  last_sync : Option Int
  sync_status : String
deriving DecidableEq, Repr

/-- The fields of a `users` row consulted by the sync route (models.py
lines 34-74): `company_id` (nullable), `role` and `is_admin`. -/
structure User where
  company_id : Option Nat
  role : String
  is_admin : Bool
deriving DecidableEq, Repr

/-- User.is_super_admin (models.py lines 68-70). -/
def User.is_super_admin (u : User) : Bool :=
  u.role == "super_admin"

/-- User.can_manage_company (models.py lines 72-74): super admins manage
every company, otherwise the user must belong to the company and be an
admin. -/
def User.can_manage_company (u : User) (company_id : Nat) : Bool :=
  u.is_super_admin || (u.company_id == some company_id && u.is_admin)

/-- The slice of persisted database state the sync route touches: whether
the company row of the current user exists, whether an `entra_id`
SSOConfiguration row exists for it, the company's EntraIntegration row if
any, and the `sso_applications` table. -/
structure SyncDB where
  companyExists : Bool
  ssoConfigExists : Bool
  integration : Option EntraIntegration
  apps : List SSOApplication
deriving DecidableEq, Repr

/-! ## Synchronization route (src/app_monitor/blueprints/company.py 142-206) -/

/-- One JSON result of the sync route: either a jsonify error body with its
HTTP status code, or the success body with its message. -/
inductive SyncResult where
  | err (msg : String) (status : Nat)
  | ok (message : String)
deriving DecidableEq, Repr

/-- Result of one invocation of the sync route: the returned JSON, the
persisted database state afterwards, and whether any network call to the
directory service was made (the `EntraClient` constructor performs no
network call; the first call happens inside `get_applications`). -/
structure SyncOutcome where
  result : SyncResult
  db : SyncDB
  networkCalled : Bool
deriving DecidableEq, Repr

/-- The lookup of company.py lines 179-182: does the table hold a row with
this `company_id` and this `entra_app_id`? -/
def containsKey (apps : List SSOApplication) (cid : Nat) (eid : String) : Bool :=
  apps.any (fun a => a.company_id == cid && a.entra_app_id == eid)

/-- The SSOApplication constructed at company.py lines 185-191 for a remote
record not yet present: `signInAudience` defaults to "web" and `enabled`
defaults to true via `dict.get`; timestamps carry the insert-time column
defaults. -/
def newApp (cid : Nat) (now : Int) (d : AppData) : SSOApplication :=
  { company_id := cid
    entra_app_id := d.id
    name := d.displayName
    app_type := d.signInAudience.getD "web"
    is_active := d.enabled.getD true
    last_activity := none
    created_at := now
    updated_at := now }

/-- The upsert loop of company.py lines 178-192. `persisted` is the
committed table; `pending` are the rows added to the session so far during
this run (the session's autoflush makes them visible to the per-iteration
lookup, hence the lookup runs over `persisted ++ pending`). Returns the
pending rows the loop hands to `db.session.commit()`. -/
def syncLoop (cid : Nat) (now : Int) (persisted : List SSOApplication) :
    List AppData → List SSOApplication → List SSOApplication
  | [], pending => pending
  | d :: rest, pending =>
    if containsKey (persisted ++ pending) cid d.id then
      syncLoop cid now persisted rest pending
    else
      syncLoop cid now persisted rest (pending ++ [newApp cid now d])

/-- Does no row of `apps` carry this `entra_app_id`? This is the check the
database performs for the global `unique=True` constraint on the
`entra_app_id` column (models.py line 123). -/
def freshId (apps : List SSOApplication) (eid : String) : Bool :=
  apps.all (fun b => b.entra_app_id != eid)

/-- Whether committing the pending inserts succeeds: every inserted row's
`entra_app_id` must be absent from the committed table and from the other
inserted rows, by the global uniqueness of the column. -/
def insertsOk (persisted : List SSOApplication) : List SSOApplication → Bool
  | [] => true
  | a :: rest =>
    freshId persisted a.entra_app_id && freshId rest a.entra_app_id &&
      insertsOk persisted rest

/-- Error text of the IntegrityError a violated `unique=True` constraint
raises at commit, caught by the route's except-clause. -/
def uniqueViolationMsg : String :=
  "UNIQUE constraint failed: sso_applications.entra_app_id"

/-- The sync route `sync_entra` (company.py lines 142-206), as a function of
the calling user, the persisted database state, the list the directory
client returned from `get_applications` (which never raises: it degrades to
an empty list), and the current instant. Guard order follows the source:
falsy `company_id` gives a 400, a failed `can_manage_company` check a 403;
inside the try-block a missing company row raises (AttributeError on
`company.id`, caught as a 500), a missing SSOConfiguration or
EntraIntegration row gives a 400; then the upsert loop runs and the commit
either persists the pending rows together with the
`last_sync`/`sync_status` update, or raises a uniqueness IntegrityError
caught as a 500 that leaves the persisted state untouched. -/
def sync_entra (u : User) (db : SyncDB) (fetched : List AppData) (now : Int) :
    SyncOutcome :=
  match u.company_id with
  | none => ⟨SyncResult.err "Company not set up" 400, db, false⟩
  | some cid =>
    if cid = 0 then
      ⟨SyncResult.err "Company not set up" 400, db, false⟩
    else if u.can_manage_company cid = false then
      ⟨SyncResult.err "Insufficient permissions" 403, db, false⟩
    else if db.companyExists = false then
      ⟨SyncResult.err "NoneType object has no attribute id" 500, db, false⟩
    else if db.ssoConfigExists = false then
      ⟨SyncResult.err "Entra ID not configured" 400, db, false⟩
    else
      match db.integration with
      | none => ⟨SyncResult.err "Entra integration not found" 400, db, false⟩
      | some intg =>
        let pending := syncLoop cid now db.apps fetched []
        if insertsOk db.apps pending = false then
          ⟨SyncResult.err uniqueViolationMsg 500, db, true⟩
        else
          ⟨SyncResult.ok
              ("Synced " ++ toString fetched.length ++ " applications from Entra ID"),
            ⟨db.companyExists, db.ssoConfigExists,
              some ⟨intg.tenant_id, intg.client_id, intg.client_secret,
                some now, "active"⟩,
              db.apps ++ pending⟩, true⟩

/-! ## Directory access client (src/app_monitor/utils/entra_client.py) -/

/-- The token cache of an `EntraClient` instance (entra_client.py lines
18-19): `access_token` and `token_expires` both start as `None`. Instants
are integers (seconds); `token_expires` already holds the acquired token's
expiry minus the 300-second safety margin (line 43). -/
structure ClientState where
  access_token : Option String
  token_expires : Option Int
deriving DecidableEq, Repr

/-- A freshly constructed client: no cached token (entra_client.py 18-19). -/
def freshClient : ClientState :=
  ⟨none, none⟩

/-- The JSON body of a successful token-endpoint response (entra_client.py
lines 41-43): the bearer string and its lifetime in seconds. -/
structure TokenResponse where
  access_token : String
  expires_in : Int
deriving DecidableEq, Repr

/-- The cache test at entra_client.py line 27:
`if self.access_token and self.token_expires and utcnow() < self.token_expires`.
Python truthiness makes an empty bearer string falsy; a datetime is always
truthy, so `token_expires` only needs to be set. -/
def tokenCacheValid (s : ClientState) (now : Int) : Bool :=
  match s.access_token, s.token_expires with
  | some tok, some exp => tok != "" && now < exp
  | _, _ => false

/-- `_get_access_token` (entra_client.py lines 25-45) over an explicit
cache state: returns the bearer string, the cache afterwards, and whether a
token request was issued to the token endpoint. `resp` is the token
endpoint's answer, consulted only when a request is issued; a new token is
cached with expiry `now + expires_in - 300` (the 5-minute buffer). -/
def get_access_token (s : ClientState) (now : Int) (resp : TokenResponse) :
    String × ClientState × Bool :=
  if tokenCacheValid s now then
    (s.access_token.getD "", s, false)
  else
    (resp.access_token,
      ⟨some resp.access_token, some (now + resp.expires_in - 300)⟩, true)

/-- The JSON body of a Graph collection endpoint: an envelope whose
optional `value` key holds the list of records; the getters read it with
`response.get` defaulting to the empty list. -/
structure GraphResponse (α : Type) where
  value : Option (List α)
deriving DecidableEq, Repr

/-- Outcome of the one HTTP request `_make_request` performs: either a
response with a status code and parsed body, or a transport-level exception
from the HTTP library. -/
inductive HttpOutcome (α : Type) where
  | response (status : Nat) (body : GraphResponse α)
  | transportError (msg : String)
deriving DecidableEq, Repr

/-- `_make_request` (entra_client.py lines 47-72) over explicit oracles for
the two network interactions it performs: `token` is the outcome of
`_get_access_token` (an `Except.error` when token acquisition raised, e.g.
`raise_for_status` on a non-2xx token response), `http` the outcome of the
data request. `raise_for_status` turns any status of 400 or above into an
exception; a 204 yields the empty dict, i.e. an envelope without `value`.
Any exception propagates to the caller as `Except.error`. -/
def make_request (token : Except String String) (http : HttpOutcome α) :
    Except String (GraphResponse α) :=
  match token with
  | Except.error e => Except.error e
  | Except.ok _ =>
    match http with
    | HttpOutcome.transportError e => Except.error e
    | HttpOutcome.response status body =>
      if 400 ≤ status then Except.error ("HTTP error " ++ toString status)
      else if status = 204 then Except.ok ⟨none⟩
      else Except.ok body

/-- Graph record payloads the sync does not inspect (users, sign-in logs,
directory roles, role members) are opaque JSON dictionaries, modelled as
association lists. -/
def GraphDict : Type :=
  List (String × String)

/-- `get_applications` (entra_client.py lines 74-81): returns the `value`
list of `_make_request('/applications')`, and on ANY exception (token
acquisition included) logs and returns the empty list. -/
def get_applications (token : Except String String)
    (http : HttpOutcome AppData) : List AppData :=
  match make_request token http with
  | Except.ok resp => resp.value.getD []
  | Except.error _ => []

/-- `get_users` (entra_client.py lines 91-98): same best-effort contract
over `_make_request('/users')`. -/
def get_users (token : Except String String)
    (http : HttpOutcome GraphDict) : List GraphDict :=
  match make_request token http with
  | Except.ok resp => resp.value.getD []
  | Except.error _ => []

/-- `get_sign_in_logs` (entra_client.py lines 108-126): builds a trailing
`days`-window `createdDateTime` range filter for `/auditLogs/signIns`; the
filter only shapes the endpoint string, abstracted into the `http` oracle.
Empty list on any exception. -/
def get_sign_in_logs (days : Int) (token : Except String String)
    (http : HttpOutcome GraphDict) : List GraphDict :=
  match days, make_request token http with
  | _, Except.ok resp => resp.value.getD []
  | _, Except.error _ => []

/-- `get_application_sign_ins` (entra_client.py lines 128-146): the
windowed sign-in query further filtered by `appId`. Empty list on any
exception. -/
def get_application_sign_ins (app_id : String) (days : Int)
    (token : Except String String) (http : HttpOutcome GraphDict) :
    List GraphDict :=
  match app_id, days, make_request token http with
  | _, _, Except.ok resp => resp.value.getD []
  | _, _, Except.error _ => []

/-- `get_directory_roles` (entra_client.py lines 148-155): best-effort GET
on `/directoryRoles`. -/
def get_directory_roles (token : Except String String)
    (http : HttpOutcome GraphDict) : List GraphDict :=
  match make_request token http with
  | Except.ok resp => resp.value.getD []
  | Except.error _ => []

/-- `get_directory_role_members` (entra_client.py lines 157-164):
best-effort GET on the role's members collection. -/
def get_directory_role_members (role_id : String)
    (token : Except String String) (http : HttpOutcome GraphDict) :
    List GraphDict :=
  match role_id, make_request token http with
  | _, Except.ok resp => resp.value.getD []
  | _, Except.error _ => []

/-- A transport or HTTP-status failure of the underlying request: the token
acquisition raised, the data request raised at transport level, or the data
request came back with an error status (400 or above). -/
def requestFails (token : Except String String) (http : HttpOutcome α) : Prop :=
  (∃ e, token = Except.error e) ∨
  (∃ e, http = HttpOutcome.transportError e) ∨
  (∃ status body, http = HttpOutcome.response status body ∧ 400 ≤ status)

/-! ## Helper lemmas about the upsert loop -/

theorem containsKey_append (xs ys : List SSOApplication) (cid : Nat) (eid : String) :
    containsKey (xs ++ ys) cid eid =
      (containsKey xs cid eid || containsKey ys cid eid) := by
  simp [containsKey, List.any_append]

theorem syncLoop_extends (cid : Nat) (now : Int) (p : List SSOApplication) :
    ∀ (remote : List AppData) (pending : List SSOApplication),
      ∃ t, syncLoop cid now p remote pending = pending ++ t := by
  intro remote
  induction remote with
  | nil => exact fun pending => ⟨[], by simp [syncLoop]⟩
  | cons d rest ih =>
    intro pending
    cases h : containsKey (p ++ pending) cid d.id with
    | true =>
      obtain ⟨t, ht⟩ := ih pending
      exact ⟨t, by simp [syncLoop, h, ht]⟩
    | false =>
      obtain ⟨t, ht⟩ := ih (pending ++ [newApp cid now d])
      exact ⟨[newApp cid now d] ++ t, by simp [syncLoop, h, ht]⟩

theorem syncLoop_mono (cid : Nat) (now : Int) (p : List SSOApplication)
    (remote : List AppData) (pending : List SSOApplication) (eid : String)
    (h : containsKey (p ++ pending) cid eid = true) :
    containsKey (p ++ syncLoop cid now p remote pending) cid eid = true := by
  obtain ⟨t, ht⟩ := syncLoop_extends cid now p remote pending
  rw [ht, ← List.append_assoc, containsKey_append]
  simp only [Bool.or_eq_true]
  exact Or.inl h

theorem syncLoop_covers (cid : Nat) (now : Int) (p : List SSOApplication) :
    ∀ (remote : List AppData) (pending : List SSOApplication) (d : AppData),
      d ∈ remote →
      containsKey (p ++ syncLoop cid now p remote pending) cid d.id = true := by
  intro remote
  induction remote with
  | nil => intro pending d hd; cases hd
  | cons e rest ih =>
    intro pending d hd
    cases h : containsKey (p ++ pending) cid e.id with
    | true =>
      rw [show syncLoop cid now p (e :: rest) pending =
            syncLoop cid now p rest pending from by simp [syncLoop, h]]
      rcases List.mem_cons.mp hd with rfl | hd'
      · exact syncLoop_mono cid now p rest pending d.id h
      · exact ih pending d hd'
    | false =>
      rw [show syncLoop cid now p (e :: rest) pending =
            syncLoop cid now p rest (pending ++ [newApp cid now e]) from by
          simp [syncLoop, h]]
      rcases List.mem_cons.mp hd with rfl | hd'
      · apply syncLoop_mono
        simp [containsKey_append, containsKey, newApp]
      · exact ih (pending ++ [newApp cid now e]) d hd'

theorem syncLoop_noop (cid : Nat) (now : Int) (p : List SSOApplication) :
    ∀ (remote : List AppData) (pending : List SSOApplication),
      (∀ d ∈ remote, containsKey (p ++ pending) cid d.id = true) →
      syncLoop cid now p remote pending = pending := by
  intro remote
  induction remote with
  | nil => intro pending _; rfl
  | cons e rest ih =>
    intro pending h
    have he := h e (List.mem_cons_self e rest)
    rw [show syncLoop cid now p (e :: rest) pending =
          syncLoop cid now p rest pending from by simp [syncLoop, he]]
    exact ih pending (fun d hd => h d (List.mem_cons_of_mem e hd))

/-! ## Helper lemmas about keys and commit -/

/-- The per-company key of an inventory row. -/
def keyOf (a : SSOApplication) : Nat × String :=
  (a.company_id, a.entra_app_id)

/-- The inventory invariant: at most one row per (company, remote
identifier) pair. -/
def atMostOnePerKey (apps : List SSOApplication) : Prop :=
  (apps.map keyOf).Nodup

instance : ∀ apps : List SSOApplication, Decidable (atMostOnePerKey apps) :=
  fun apps => List.nodupDecidable (apps.map keyOf)

theorem key_not_mem_of_containsKey_false (xs : List SSOApplication)
    (cid : Nat) (eid : String) (h : containsKey xs cid eid = false) :
    (cid, eid) ∉ xs.map keyOf := by
  intro hmem
  rcases List.mem_map.mp hmem with ⟨a, ha, hk⟩
  simp only [containsKey, List.any_eq_false, Bool.and_eq_true, beq_iff_eq] at h
  have := h a ha
  rw [keyOf, Prod.mk.injEq] at hk
  exact this ⟨hk.1, hk.2⟩

theorem nodup_map_append_singleton (l : List SSOApplication)
    (x : SSOApplication) (h : (l.map keyOf).Nodup)
    (hx : keyOf x ∉ l.map keyOf) : ((l ++ [x]).map keyOf).Nodup := by
  rw [List.map_append, List.map_singleton]
  refine List.Nodup.append h (List.nodup_singleton _) ?_
  intro k hk hk'
  rcases List.mem_singleton.mp hk' with rfl
  exact hx hk

theorem syncLoop_keys (cid : Nat) (now : Int) (p : List SSOApplication) :
    ∀ (remote : List AppData) (pending : List SSOApplication),
      atMostOnePerKey (p ++ pending) →
      atMostOnePerKey (p ++ syncLoop cid now p remote pending) := by
  intro remote
  induction remote with
  | nil => intro pending h; exact h
  | cons e rest ih =>
    intro pending h
    cases hc : containsKey (p ++ pending) cid e.id with
    | true =>
      rw [show syncLoop cid now p (e :: rest) pending =
            syncLoop cid now p rest pending from by simp [syncLoop, hc]]
      exact ih pending h
    | false =>
      rw [show syncLoop cid now p (e :: rest) pending =
            syncLoop cid now p rest (pending ++ [newApp cid now e]) from by
          simp [syncLoop, hc]]
      apply ih
      unfold atMostOnePerKey at h ⊢
      rw [← List.append_assoc]
      exact nodup_map_append_singleton _ _ h
        (key_not_mem_of_containsKey_false _ _ _ hc)

theorem insertsOk_false_of_mem (p : List SSOApplication) :
    ∀ (pending : List SSOApplication) (r : SSOApplication), r ∈ pending →
      freshId p r.entra_app_id = false → insertsOk p pending = false := by
  intro pending
  induction pending with
  | nil => intro r hr; cases hr
  | cons b rest ih =>
    intro r hr hfresh
    rcases List.mem_cons.mp hr with rfl | hr'
    · simp [insertsOk, hfresh]
    · simp [insertsOk, ih r hr' hfresh]

theorem freshId_false_of_mem (p : List SSOApplication) (a : SSOApplication)
    (ha : a ∈ p) (eid : String) (haid : a.entra_app_id = eid) :
    freshId p eid = false := by
  simp only [freshId, List.all_eq_false]
  exact ⟨a, ha, by simp [haid]⟩

theorem syncLoop_inserts_id (cid : Nat) (now : Int) (p : List SSOApplication) :
    ∀ (remote : List AppData) (pending : List SSOApplication) (d : AppData),
      d ∈ remote → containsKey p cid d.id = false →
      ∃ r ∈ syncLoop cid now p remote pending, r.entra_app_id = d.id := by
  intro remote
  induction remote with
  | nil => intro pending d hd; cases hd
  | cons e rest ih =>
    intro pending d hd hp
    cases hc : containsKey (p ++ pending) cid e.id with
    | true =>
      rw [show syncLoop cid now p (e :: rest) pending =
            syncLoop cid now p rest pending from by simp [syncLoop, hc]]
      rcases List.mem_cons.mp hd with rfl | hd'
      · rw [containsKey_append] at hc
        simp only [Bool.or_eq_true] at hc
        rcases hc with hc | hc
        · rw [hp] at hc; cases hc
        · simp only [containsKey, List.any_eq_true, Bool.and_eq_true,
            beq_iff_eq] at hc
          rcases hc with ⟨r, hr, _, hrid⟩
          obtain ⟨t, ht⟩ := syncLoop_extends cid now p rest pending
          exact ⟨r, by rw [ht]; exact List.mem_append_left t hr, hrid⟩
      · exact ih pending d hd' hp
    | false =>
      rw [show syncLoop cid now p (e :: rest) pending =
            syncLoop cid now p rest (pending ++ [newApp cid now e]) from by
          simp [syncLoop, hc]]
      rcases List.mem_cons.mp hd with rfl | hd'
      · obtain ⟨t, ht⟩ :=
          syncLoop_extends cid now p rest (pending ++ [newApp cid now d])
        refine ⟨newApp cid now d, ?_, rfl⟩
        rw [ht]
        exact List.mem_append_left t
          (List.mem_append_right pending (List.mem_singleton.mpr rfl))
      · exact ih (pending ++ [newApp cid now e]) d hd' hp

/-! ## Branch evaluation lemmas for the sync route -/

theorem sync_entra_eq_noCompanyId (u : User) (db : SyncDB)
    (fetched : List AppData) (now : Int) (h : u.company_id = none) :
    sync_entra u db fetched now =
      ⟨SyncResult.err "Company not set up" 400, db, false⟩ := by
  simp [sync_entra, h]

theorem sync_entra_eq_zeroCompanyId (u : User) (db : SyncDB)
    (fetched : List AppData) (now : Int) (cid : Nat)
    (h : u.company_id = some cid) (h0 : cid = 0) :
    sync_entra u db fetched now =
      ⟨SyncResult.err "Company not set up" 400, db, false⟩ := by
  simp [sync_entra, h, h0]

theorem sync_entra_eq_forbidden (u : User) (db : SyncDB)
    (fetched : List AppData) (now : Int) (cid : Nat)
    (h : u.company_id = some cid) (h0 : ¬cid = 0)
    (h1 : u.can_manage_company cid = false) :
    sync_entra u db fetched now =
      ⟨SyncResult.err "Insufficient permissions" 403, db, false⟩ := by
  simp [sync_entra, h, h0, h1]

theorem sync_entra_eq_missingCompanyRow (u : User) (db : SyncDB)
    (fetched : List AppData) (now : Int) (cid : Nat)
    (h : u.company_id = some cid) (h0 : ¬cid = 0)
    (h1 : u.can_manage_company cid = true) (h2 : db.companyExists = false) :
    sync_entra u db fetched now =
      ⟨SyncResult.err "NoneType object has no attribute id" 500, db, false⟩ := by
  simp [sync_entra, h, h0, h1, h2]

theorem sync_entra_eq_notConfigured (u : User) (db : SyncDB)
    (fetched : List AppData) (now : Int) (cid : Nat)
    (h : u.company_id = some cid) (h0 : ¬cid = 0)
    (h1 : u.can_manage_company cid = true) (h2 : db.companyExists = true)
    (h3 : db.ssoConfigExists = false) :
    sync_entra u db fetched now =
      ⟨SyncResult.err "Entra ID not configured" 400, db, false⟩ := by
  simp [sync_entra, h, h0, h1, h2, h3]

theorem sync_entra_eq_noIntegration (u : User) (db : SyncDB)
    (fetched : List AppData) (now : Int) (cid : Nat)
    (h : u.company_id = some cid) (h0 : ¬cid = 0)
    (h1 : u.can_manage_company cid = true) (h2 : db.companyExists = true)
    (h3 : db.ssoConfigExists = true) (h4 : db.integration = none) :
    sync_entra u db fetched now =
      ⟨SyncResult.err "Entra integration not found" 400, db, false⟩ := by
  simp [sync_entra, h, h0, h1, h2, h3, h4]

theorem sync_entra_eq_conflict (u : User) (db : SyncDB)
    (fetched : List AppData) (now : Int) (cid : Nat) (intg : EntraIntegration)
    (h : u.company_id = some cid) (h0 : ¬cid = 0)
    (h1 : u.can_manage_company cid = true) (h2 : db.companyExists = true)
    (h3 : db.ssoConfigExists = true) (h4 : db.integration = some intg)
    (h5 : insertsOk db.apps (syncLoop cid now db.apps fetched []) = false) :
    sync_entra u db fetched now =
      ⟨SyncResult.err uniqueViolationMsg 500, db, true⟩ := by
  simp [sync_entra, h, h0, h1, h2, h3, h4, h5]

theorem sync_entra_eq_success (u : User) (db : SyncDB)
    (fetched : List AppData) (now : Int) (cid : Nat) (intg : EntraIntegration)
    (h : u.company_id = some cid) (h0 : ¬cid = 0)
    (h1 : u.can_manage_company cid = true) (h2 : db.companyExists = true)
    (h3 : db.ssoConfigExists = true) (h4 : db.integration = some intg)
    (h5 : insertsOk db.apps (syncLoop cid now db.apps fetched []) = true) :
    sync_entra u db fetched now =
      ⟨SyncResult.ok ("Synced " ++ toString fetched.length ++
          " applications from Entra ID"),
        ⟨true, true,
          some ⟨intg.tenant_id, intg.client_id, intg.client_secret,
            some now, "active"⟩,
          db.apps ++ syncLoop cid now db.apps fetched []⟩, true⟩ := by
  simp [sync_entra, h, h0, h1, h2, h3, h4, h5]

/-- Every run of the sync route either fails, returning some error body and
leaving the persisted state untouched, or takes the success branch, in
which case all guards passed, the commit was consistent, and the final
state appends exactly the loop's pending rows and marks the integration
active. -/
theorem sync_entra_shape (u : User) (db : SyncDB) (fetched : List AppData)
    (now : Int) :
    (∃ m s b, sync_entra u db fetched now = ⟨SyncResult.err m s, db, b⟩)
    ∨ (∃ cid intg,
        u.company_id = some cid ∧ ¬cid = 0 ∧
        u.can_manage_company cid = true ∧
        db.companyExists = true ∧ db.ssoConfigExists = true ∧
        db.integration = some intg ∧
        insertsOk db.apps (syncLoop cid now db.apps fetched []) = true ∧
        sync_entra u db fetched now =
          ⟨SyncResult.ok ("Synced " ++ toString fetched.length ++
              " applications from Entra ID"),
            ⟨true, true,
              some ⟨intg.tenant_id, intg.client_id, intg.client_secret,
                some now, "active"⟩,
              db.apps ++ syncLoop cid now db.apps fetched []⟩, true⟩) := by
  cases hcid : u.company_id with
  | none =>
    exact Or.inl ⟨_, _, _, sync_entra_eq_noCompanyId u db fetched now hcid⟩
  | some cid =>
    by_cases h0 : cid = 0
    · exact Or.inl
        ⟨_, _, _, sync_entra_eq_zeroCompanyId u db fetched now cid hcid h0⟩
    cases h1 : u.can_manage_company cid with
    | false =>
      exact Or.inl
        ⟨_, _, _, sync_entra_eq_forbidden u db fetched now cid hcid h0 h1⟩
    | true =>
      cases h2 : db.companyExists with
      | false =>
        exact Or.inl ⟨_, _, _,
          sync_entra_eq_missingCompanyRow u db fetched now cid hcid h0 h1 h2⟩
      | true =>
        cases h3 : db.ssoConfigExists with
        | false =>
          exact Or.inl ⟨_, _, _,
            sync_entra_eq_notConfigured u db fetched now cid hcid h0 h1 h2 h3⟩
        | true =>
          cases h4 : db.integration with
          | none =>
            exact Or.inl ⟨_, _, _,
              sync_entra_eq_noIntegration u db fetched now cid hcid h0 h1 h2 h3 h4⟩
          | some intg =>
            cases h5 : insertsOk db.apps (syncLoop cid now db.apps fetched []) with
            | false =>
              exact Or.inl ⟨_, _, _, sync_entra_eq_conflict u db fetched now
                cid intg hcid h0 h1 h2 h3 h4 h5⟩
            | true =>
              exact Or.inr ⟨cid, intg, rfl, h0, h1, rfl, rfl, rfl, h5,
                sync_entra_eq_success u db fetched now cid intg
                  hcid h0 h1 h2 h3 h4 h5⟩

theorem containsKey_false_of_freshId (apps : List SSOApplication) (cid : Nat)
    (eid : String) (h : freshId apps eid = true) :
    containsKey apps cid eid = false := by
  simp only [freshId, List.all_eq_true, bne_iff_ne, ne_eq] at h
  simp only [containsKey, List.any_eq_false, Bool.and_eq_true, beq_iff_eq,
    not_and]
  intro a ha _
  exact h a ha

theorem make_request_error {α : Type} (token : Except String String)
    (http : HttpOutcome α) (hf : requestFails token http) :
    ∃ e, make_request token http = Except.error e := by
  rcases hf with ⟨e, rfl⟩ | ⟨e, rfl⟩ | ⟨status, body, rfl, hs⟩
  · exact ⟨e, rfl⟩
  · cases token with
    | error e' => exact ⟨e', rfl⟩
    | ok tok => exact ⟨e, rfl⟩
  · cases token with
    | error e' => exact ⟨e', rfl⟩
    | ok tok => exact ⟨"HTTP error " ++ toString status, by simp [make_request, hs]⟩

/-! ## Concrete sample values for witnesses -/

/-- An admin of company 1. -/
def sampleAdmin : User :=
  ⟨some 1, "admin", true⟩

/-- An admin of company 2. -/
def otherAdmin : User :=
  ⟨some 2, "admin", true⟩

/-- A member of company 1 with no admin rights. -/
def plainUser : User :=
  ⟨some 1, "user", false⟩

/-- A configured integration row awaiting its first sync. -/
def sampleIntegration : EntraIntegration :=
  ⟨"tenant-1", "client-1", "secret-1", none, "pending"⟩

/-- A fully configured database whose inventory is empty. -/
def sampleDB : SyncDB :=
  ⟨true, true, some sampleIntegration, []⟩

/-- A remote application record carrying only the required keys. -/
def sampleApp : AppData :=
  ⟨"a1", "Slack", none, none⟩

/-- An inventory row of company 1 holding remote identifier "a1". -/
def conflictRow : SSOApplication :=
  ⟨1, "a1", "Slack", "web", true, none, 0, 0⟩

/-- A configured database whose inventory already records "a1" for
company 1. -/
def conflictDB : SyncDB :=
  ⟨true, true, some sampleIntegration, [conflictRow]⟩

/-! ## Claim theorems -/

/-- C9: a caller without company-management rights for the target company
receives the 403 authorization error, the persisted state is untouched,
and no network call to the directory service is made (neither the token
request nor the data fetch happens, since both live inside
`get_applications`, which is only reached after the guard). -/
theorem sync_entra_auth_gate (u : User) (db : SyncDB) (fetched : List AppData)
    (now : Int) (cid : Nat) (h : u.company_id = some cid) (h0 : ¬cid = 0)
    (hperm : u.can_manage_company cid = false) :
    sync_entra u db fetched now =
      ⟨SyncResult.err "Insufficient permissions" 403, db, false⟩ :=
  sync_entra_eq_forbidden u db fetched now cid h h0 hperm

theorem sync_entra_auth_gate_witness :
    sync_entra plainUser sampleDB [sampleApp] 0 =
      ⟨SyncResult.err "Insufficient permissions" 403, sampleDB, false⟩ :=
  sync_entra_auth_gate plainUser sampleDB [sampleApp] 0 1 rfl (by decide)
    (by decide)

/-- C4: every Local Application Entity that exists when a sync starts is
still present, in place and with every field unchanged, when the sync ends:
whatever the remote records carry, the resulting inventory is the original
list with a (possibly empty) batch of freshly created rows appended. -/
theorem sync_entra_preserves_existing (u : User) (db : SyncDB)
    (fetched : List AppData) (now : Int) :
    ∃ tail, (sync_entra u db fetched now).db.apps = db.apps ++ tail := by
  rcases sync_entra_shape u db fetched now with ⟨m, s, b, heq⟩ |
    ⟨cid, intg, _, _, _, _, _, _, _, heq⟩
  · exact ⟨[], by rw [heq]; simp⟩
  · exact ⟨syncLoop cid now db.apps fetched [], by rw [heq]⟩

/-- C2: a sync run preserves the inventory invariant that each
(company, remote identifier) pair owns at most one Local Application
Entity, because the loop looks an application up by that pair and inserts
only on a miss. -/
theorem sync_entra_key_invariant (u : User) (db : SyncDB)
    (fetched : List AppData) (now : Int) (h : atMostOnePerKey db.apps) :
    atMostOnePerKey (sync_entra u db fetched now).db.apps := by
  rcases sync_entra_shape u db fetched now with ⟨m, s, b, heq⟩ |
    ⟨cid, intg, _, _, _, _, _, _, _, heq⟩
  · rw [heq]; exact h
  · rw [heq]
    exact syncLoop_keys cid now db.apps fetched [] (by simpa using h)

theorem sync_entra_key_invariant_witness :
    atMostOnePerKey (sync_entra sampleAdmin sampleDB [sampleApp] 0).db.apps :=
  sync_entra_key_invariant sampleAdmin sampleDB [sampleApp] 0 (by decide)

/-- C3: every exception raised inside the route's try-block is caught and
turned into a structured error body with HTTP status 500, in which case the
persisted state — inventory, sync_status and last_sync alike — is exactly
what it was before the call; moreover no run ever writes "error" into
sync_status: after any run the status is either what it was or "active". -/
theorem sync_entra_exception_handling (u : User) (db : SyncDB)
    (fetched : List AppData) (now : Int) :
    (∀ m, (sync_entra u db fetched now).result = SyncResult.err m 500 →
      (sync_entra u db fetched now).db = db)
    ∧ ((sync_entra u db fetched now).db.integration.map
          EntraIntegration.sync_status =
        db.integration.map EntraIntegration.sync_status
      ∨ (sync_entra u db fetched now).db.integration.map
          EntraIntegration.sync_status = some "active") := by
  rcases sync_entra_shape u db fetched now with ⟨m, s, b, heq⟩ |
    ⟨cid, intg, _, _, _, _, _, _, _, heq⟩
  · rw [heq]
    exact ⟨fun _ _ => rfl, Or.inl rfl⟩
  · rw [heq]
    refine ⟨fun m hm => ?_, Or.inr rfl⟩
    exact absurd hm (by simp)

theorem sync_entra_exception_handling_witness :
    (sync_entra otherAdmin conflictDB [sampleApp] 5).db = conflictDB :=
  (sync_entra_exception_handling otherAdmin conflictDB [sampleApp] 5).1
    uniqueViolationMsg (by decide)

/-- C6: when the upsert loop completes and the commit raises no exception,
the route reports success and writes sync_status "active" and
last_sync = the current instant into the integration row — for every remote
list, the empty one and lists of already-known applications included. -/
theorem sync_entra_success_marks_active (u : User) (db : SyncDB)
    (fetched : List AppData) (now : Int) (cid : Nat) (intg : EntraIntegration)
    (h : u.company_id = some cid) (h0 : ¬cid = 0)
    (h1 : u.can_manage_company cid = true) (h2 : db.companyExists = true)
    (h3 : db.ssoConfigExists = true) (h4 : db.integration = some intg)
    (h5 : insertsOk db.apps (syncLoop cid now db.apps fetched []) = true) :
    (sync_entra u db fetched now).result =
      SyncResult.ok ("Synced " ++ toString fetched.length ++
        " applications from Entra ID")
    ∧ (sync_entra u db fetched now).db.integration =
      some ⟨intg.tenant_id, intg.client_id, intg.client_secret,
        some now, "active"⟩ := by
  rw [sync_entra_eq_success u db fetched now cid intg h h0 h1 h2 h3 h4 h5]
  exact ⟨rfl, rfl⟩

theorem sync_entra_success_marks_active_witness :
    (sync_entra sampleAdmin sampleDB [] 7).result =
      SyncResult.ok "Synced 0 applications from Entra ID"
    ∧ (sync_entra sampleAdmin sampleDB [] 7).db.integration =
      some ⟨"tenant-1", "client-1", "secret-1", some 7, "active"⟩ := by
  have h := sync_entra_success_marks_active sampleAdmin sampleDB [] 7 1
    sampleIntegration rfl (by decide) (by decide) rfl rfl rfl (by decide)
  exact ⟨h.1.trans (by decide), h.2.trans (by decide)⟩

/-- C8 counterexample: company 2 holds no Local Application Entity for the
pair (2, "a1"), yet a sync of company 2 whose remote list carries "a1" —
already recorded for company 1 — creates no entity at all: the globally
unique `entra_app_id` column makes the commit fail and the route answers
with the 500 failure, leaving the inventory as it was. -/
theorem sync_entra_new_app_claim_cex :
    containsKey conflictDB.apps 2 "a1" = false
    ∧ (sync_entra otherAdmin conflictDB [sampleApp] 5).db.apps =
        conflictDB.apps
    ∧ (sync_entra otherAdmin conflictDB [sampleApp] 5).result =
        SyncResult.err uniqueViolationMsg 500 :=
  ⟨by decide, by decide, by decide⟩

/-- C8 (amended): given a remote list with one record whose identifier is
fresh for the entire inventory (not merely for this company — the
`entra_app_id` column is globally unique), a sync that passes the guards
creates exactly one new Local Application Entity, name/type/active copied
from the remote record, with type defaulting to "web" and the active flag
defaulting to true when the record omits them. -/
theorem sync_entra_new_app_insert (u : User) (db : SyncDB) (d : AppData)
    (now : Int) (cid : Nat) (intg : EntraIntegration)
    (h : u.company_id = some cid) (h0 : ¬cid = 0)
    (h1 : u.can_manage_company cid = true) (h2 : db.companyExists = true)
    (h3 : db.ssoConfigExists = true) (h4 : db.integration = some intg)
    (hfresh : freshId db.apps d.id = true) :
    (sync_entra u db [d] now).db.apps =
      db.apps ++
        [{ company_id := cid, entra_app_id := d.id, name := d.displayName,
           app_type := d.signInAudience.getD "web",
           is_active := d.enabled.getD true, last_activity := none,
           created_at := now, updated_at := now }] := by
  have hkey : containsKey db.apps cid d.id = false :=
    containsKey_false_of_freshId db.apps cid d.id hfresh
  have hloop : syncLoop cid now db.apps [d] [] = [newApp cid now d] := by
    simp [syncLoop, hkey]
  have h5 : insertsOk db.apps (syncLoop cid now db.apps [d] []) = true := by
    rw [hloop]
    simp [insertsOk, newApp, freshId] at hfresh ⊢
    exact hfresh
  rw [sync_entra_eq_success u db [d] now cid intg h h0 h1 h2 h3 h4 h5, hloop]
  rfl

theorem sync_entra_new_app_insert_witness :
    (sync_entra sampleAdmin sampleDB [sampleApp] 3).db.apps =
      [⟨1, "a1", "Slack", "web", true, none, 3, 3⟩] := by
  have h := sync_entra_new_app_insert sampleAdmin sampleDB sampleApp 3 1
    sampleIntegration rfl (by decide) (by decide) rfl rfl rfl (by decide)
  exact h.trans (by decide)

/-- C10: the `entra_app_id` column is unique across the whole inventory,
not per company, so a sync for one company that discovers a remote
identifier already recorded for a different company violates uniqueness at
commit: the route returns the structured 500 failure and the persisted
state is unchanged. -/
theorem sync_entra_cross_company_conflict (u : User) (db : SyncDB)
    (fetched : List AppData) (now : Int) (cid : Nat) (intg : EntraIntegration)
    (d : AppData) (a : SSOApplication)
    (h : u.company_id = some cid) (h0 : ¬cid = 0)
    (h1 : u.can_manage_company cid = true) (h2 : db.companyExists = true)
    (h3 : db.ssoConfigExists = true) (h4 : db.integration = some intg)
    (hd : d ∈ fetched) (ha : a ∈ db.apps) (haid : a.entra_app_id = d.id)
    (hkey : containsKey db.apps cid d.id = false) :
    sync_entra u db fetched now =
      ⟨SyncResult.err uniqueViolationMsg 500, db, true⟩ := by
  have hfreshF : freshId db.apps d.id = false :=
    freshId_false_of_mem db.apps a ha d.id haid
  obtain ⟨r, hr, hrid⟩ := syncLoop_inserts_id cid now db.apps fetched [] d hd hkey
  have h5 : insertsOk db.apps (syncLoop cid now db.apps fetched []) = false :=
    insertsOk_false_of_mem db.apps _ r hr (by rw [hrid]; exact hfreshF)
  exact sync_entra_eq_conflict u db fetched now cid intg h h0 h1 h2 h3 h4 h5

theorem sync_entra_cross_company_conflict_witness :
    sync_entra otherAdmin conflictDB [sampleApp] 9 =
      ⟨SyncResult.err uniqueViolationMsg 500, conflictDB, true⟩ :=
  sync_entra_cross_company_conflict otherAdmin conflictDB [sampleApp] 9 2
    sampleIntegration sampleApp conflictRow rfl (by decide) (by decide) rfl
    rfl rfl (by decide) (by decide) (by decide) (by decide)

theorem freshId_congr : ∀ (xs ys : List SSOApplication),
    xs.map keyOf = ys.map keyOf → ∀ eid, freshId xs eid = freshId ys eid := by
  intro xs
  induction xs with
  | nil =>
    intro ys h eid
    cases ys with
    | nil => rfl
    | cons b t => simp at h
  | cons a t ih =>
    intro ys h eid
    cases ys with
    | nil => simp at h
    | cons b t' =>
      simp only [List.map_cons, List.cons.injEq] at h
      have hid : a.entra_app_id = b.entra_app_id := congrArg Prod.snd h.1
      show ((a.entra_app_id != eid) && freshId t eid)
        = ((b.entra_app_id != eid) && freshId t' eid)
      rw [hid, ih t' h.2 eid]

theorem insertsOk_congr (p : List SSOApplication) :
    ∀ (xs ys : List SSOApplication), xs.map keyOf = ys.map keyOf →
      insertsOk p xs = insertsOk p ys := by
  intro xs
  induction xs with
  | nil =>
    intro ys h
    cases ys with
    | nil => rfl
    | cons b t => simp at h
  | cons a t ih =>
    intro ys h
    cases ys with
    | nil => simp at h
    | cons b t' =>
      simp only [List.map_cons, List.cons.injEq] at h
      have hid : a.entra_app_id = b.entra_app_id := congrArg Prod.snd h.1
      show (freshId p a.entra_app_id && freshId t a.entra_app_id &&
          insertsOk p t)
        = (freshId p b.entra_app_id && freshId t' b.entra_app_id &&
          insertsOk p t')
      rw [hid, freshId_congr t t' h.2, ih t' h.2]

theorem containsKey_congr : ∀ (xs ys : List SSOApplication),
    xs.map keyOf = ys.map keyOf →
    ∀ cid eid, containsKey xs cid eid = containsKey ys cid eid := by
  intro xs
  induction xs with
  | nil =>
    intro ys h cid eid
    cases ys with
    | nil => rfl
    | cons b t => simp at h
  | cons a t ih =>
    intro ys h cid eid
    cases ys with
    | nil => simp at h
    | cons b t' =>
      simp only [List.map_cons, List.cons.injEq] at h
      have hcmp : a.company_id = b.company_id := congrArg Prod.fst h.1
      have hid : a.entra_app_id = b.entra_app_id := congrArg Prod.snd h.1
      show ((a.company_id == cid && a.entra_app_id == eid) ||
          containsKey t cid eid)
        = ((b.company_id == cid && b.entra_app_id == eid) ||
          containsKey t' cid eid)
      rw [hcmp, hid, ih t' h.2 cid eid]

theorem syncLoop_keys_congr (cid : Nat) (now1 now2 : Int)
    (p : List SSOApplication) :
    ∀ (remote : List AppData) (pending pending' : List SSOApplication),
      pending.map keyOf = pending'.map keyOf →
      (syncLoop cid now1 p remote pending).map keyOf =
        (syncLoop cid now2 p remote pending').map keyOf := by
  intro remote
  induction remote with
  | nil => intro pending pending' h; exact h
  | cons d rest ih =>
    intro pending pending' h
    have hck : containsKey (p ++ pending) cid d.id =
        containsKey (p ++ pending') cid d.id :=
      containsKey_congr _ _ (by rw [List.map_append, List.map_append, h])
        cid d.id
    cases hc : containsKey (p ++ pending) cid d.id with
    | true =>
      rw [show syncLoop cid now1 p (d :: rest) pending =
            syncLoop cid now1 p rest pending from by simp [syncLoop, hc],
        show syncLoop cid now2 p (d :: rest) pending' =
            syncLoop cid now2 p rest pending' from by
          simp [syncLoop, hck ▸ hc]]
      exact ih pending pending' h
    | false =>
      rw [show syncLoop cid now1 p (d :: rest) pending =
            syncLoop cid now1 p rest (pending ++ [newApp cid now1 d]) from by
          simp [syncLoop, hc],
        show syncLoop cid now2 p (d :: rest) pending' =
            syncLoop cid now2 p rest (pending' ++ [newApp cid now2 d]) from by
          simp [syncLoop, hck ▸ hc]]
      exact ih (pending ++ [newApp cid now1 d])
        (pending' ++ [newApp cid now2 d])
        (by rw [List.map_append, List.map_append, h]; rfl)

/-- C1: running the sync route twice with the same unchanged remote list is
idempotent on the inventory: whatever the first run did, the second run
creates no Local Application Entity, introduces no duplicate, and changes
no field of any existing entity — the inventory after the second run is
exactly the inventory after the first. -/
theorem sync_entra_idempotent (u : User) (db : SyncDB) (fetched : List AppData)
    (now1 now2 : Int) :
    (sync_entra u (sync_entra u db fetched now1).db fetched now2).db.apps =
      (sync_entra u db fetched now1).db.apps := by
  rcases sync_entra_shape u db fetched now1 with ⟨m, s, b, heq1⟩ |
    ⟨cid, intg, hcid, h0, h1, h2, h3, h4, h5, heq1⟩
  · have hdb1 : (sync_entra u db fetched now1).db = db := by rw [heq1]
    rw [hdb1]
    rcases sync_entra_shape u db fetched now2 with ⟨m2, s2, b2, heq2⟩ |
      ⟨cid2, intg2, hcid2, h02, h12, h22, h32, h42, h52, heq2⟩
    · rw [heq2]
    · exfalso
      have h51 : insertsOk db.apps (syncLoop cid2 now1 db.apps fetched [])
          = true := by
        rw [insertsOk_congr db.apps _ _
          (syncLoop_keys_congr cid2 now1 now2 db.apps fetched [] [] rfl)]
        exact h52
      have hok := sync_entra_eq_success u db fetched now1 cid2 intg2 hcid2
        h02 h12 h22 h32 h42 h51
      rw [hok] at heq1
      exact absurd heq1 (by simp)
  · have hdb1 : (sync_entra u db fetched now1).db =
        ⟨true, true,
          some ⟨intg.tenant_id, intg.client_id, intg.client_secret,
            some now1, "active"⟩,
          db.apps ++ syncLoop cid now1 db.apps fetched []⟩ := by rw [heq1]
    have hcov : ∀ d ∈ fetched,
        containsKey
          ((db.apps ++ syncLoop cid now1 db.apps fetched []) ++ []) cid d.id
          = true := by
      intro d hd
      rw [List.append_nil]
      exact syncLoop_covers cid now1 db.apps fetched [] d hd
    have hnoop :
        syncLoop cid now2 (db.apps ++ syncLoop cid now1 db.apps fetched [])
          fetched [] = [] :=
      syncLoop_noop cid now2 _ fetched [] hcov
    have hsucc2 := sync_entra_eq_success u
      ⟨true, true,
        some ⟨intg.tenant_id, intg.client_id, intg.client_secret,
          some now1, "active"⟩,
        db.apps ++ syncLoop cid now1 db.apps fetched []⟩
      fetched now2 cid
      ⟨intg.tenant_id, intg.client_id, intg.client_secret, some now1,
        "active"⟩
      hcid h0 h1 rfl rfl rfl (by simp [hnoop, insertsOk])
    rw [hdb1, hsucc2]
    simp [hnoop]

/-- C5: the client issues a token request exactly when the cache misses —
no cached token (or an empty one, falsy in the source's truthiness test) or
the stored expiry-minus-300-seconds instant has passed — and otherwise
returns the cached token with the cache untouched. Consequently, from a
fresh client, a first call requests a token, a second call strictly before
the cached expiry reuses that token without a request (exactly one request
over the two calls), and a third call at or past the expiry issues the
second request. -/
theorem token_cache_reuse (s : ClientState) (now : Int) (resp : TokenResponse)
    (t1 t2 t3 : Int) (r1 r2 : TokenResponse)
    (hr1 : r1.access_token ≠ "")
    (h2 : t2 < t1 + r1.expires_in - 300)
    (h3 : t1 + r1.expires_in - 300 ≤ t3) :
    ((get_access_token s now resp).2.2 = !tokenCacheValid s now)
    ∧ (tokenCacheValid s now = true →
        get_access_token s now resp = (s.access_token.getD "", s, false))
    ∧ ((get_access_token freshClient t1 r1).2.2 = true
      ∧ (get_access_token (get_access_token freshClient t1 r1).2.1 t2
          r1).2.2 = false
      ∧ (get_access_token (get_access_token freshClient t1 r1).2.1 t2
          r1).1 = r1.access_token
      ∧ (get_access_token
          (get_access_token (get_access_token freshClient t1 r1).2.1 t2
            r1).2.1 t3 r2).2.2 = true) := by
  have hexp3 : ¬t3 < t1 + r1.expires_in - 300 := not_lt.mpr h3
  refine ⟨?_, ?_, ?_, ?_, ?_, ?_⟩
  · cases hv : tokenCacheValid s now <;> simp [get_access_token, hv]
  · intro hv
    simp [get_access_token, hv]
  · simp [get_access_token, tokenCacheValid, freshClient]
  · simp [get_access_token, tokenCacheValid, freshClient, hr1, h2]
  · simp [get_access_token, tokenCacheValid, freshClient, hr1, h2]
  · simp [get_access_token, tokenCacheValid, freshClient, hr1, h2, hexp3]

theorem token_cache_reuse_witness :
    (get_access_token
      (get_access_token (get_access_token freshClient 0 ⟨"tokA", 3600⟩).2.1
        1000 ⟨"tokA", 3600⟩).2.1 3300 ⟨"tokB", 3600⟩).2.2 = true :=
  (token_cache_reuse ⟨some "tok", some 100⟩ 50 ⟨"t0", 1000⟩ 0 1000 3300
    ⟨"tokA", 3600⟩ ⟨"tokB", 3600⟩ (by decide) (by decide)
    (by decide)).2.2.2.2.2

/-- C7: each list-returning operation of the directory client returns the
empty list instead of raising whenever its underlying request fails —
token acquisition raised, the data request hit a transport error, or the
response carried an HTTP error status (400 or above). -/
theorem best_effort_empty_on_failure (token : Except String String)
    (ha : HttpOutcome AppData) (hu hl hs hr hm : HttpOutcome GraphDict)
    (days1 days2 : Int) (app_id role_id : String)
    (fa : requestFails token ha) (fu : requestFails token hu)
    (fl : requestFails token hl) (fs : requestFails token hs)
    (fr : requestFails token hr) (fm : requestFails token hm) :
    get_applications token ha = []
    ∧ get_users token hu = []
    ∧ get_sign_in_logs days1 token hl = []
    ∧ get_application_sign_ins app_id days2 token hs = []
    ∧ get_directory_roles token hr = []
    ∧ get_directory_role_members role_id token hm = [] := by
  obtain ⟨ea, hea⟩ := make_request_error token ha fa
  obtain ⟨eu, heu⟩ := make_request_error token hu fu
  obtain ⟨el, hel⟩ := make_request_error token hl fl
  obtain ⟨es, hes⟩ := make_request_error token hs fs
  obtain ⟨er, her⟩ := make_request_error token hr fr
  obtain ⟨em, hem⟩ := make_request_error token hm fm
  refine ⟨?_, ?_, ?_, ?_, ?_, ?_⟩
  · simp [get_applications, hea]
  · simp [get_users, heu]
  · simp [get_sign_in_logs, hel]
  · simp [get_application_sign_ins, hes]
  · simp [get_directory_roles, her]
  · simp [get_directory_role_members, hem]

theorem best_effort_empty_on_failure_witness :
    get_applications (Except.ok "bearer")
        (HttpOutcome.response 500 ⟨none⟩) = []
    ∧ get_users (Except.ok "bearer") (HttpOutcome.transportError "down") = []
    ∧ get_sign_in_logs 7 (Except.ok "bearer")
        (HttpOutcome.response 403 ⟨none⟩) = []
    ∧ get_application_sign_ins "a1" 7 (Except.ok "bearer")
        (HttpOutcome.response 404 ⟨none⟩) = []
    ∧ get_directory_roles (Except.ok "bearer")
        (HttpOutcome.transportError "down") = []
    ∧ get_directory_role_members "r1" (Except.ok "bearer")
        (HttpOutcome.response 429 ⟨none⟩) = [] :=
  best_effort_empty_on_failure (Except.ok "bearer")
    (HttpOutcome.response 500 ⟨none⟩) (HttpOutcome.transportError "down")
    (HttpOutcome.response 403 ⟨none⟩) (HttpOutcome.response 404 ⟨none⟩)
    (HttpOutcome.transportError "down") (HttpOutcome.response 429 ⟨none⟩)
    7 7 "a1" "r1"
    (Or.inr (Or.inr ⟨500, ⟨none⟩, rfl, by norm_num⟩))
    (Or.inr (Or.inl ⟨"down", rfl⟩))
    (Or.inr (Or.inr ⟨403, ⟨none⟩, rfl, by norm_num⟩))
    (Or.inr (Or.inr ⟨404, ⟨none⟩, rfl, by norm_num⟩))
    (Or.inr (Or.inl ⟨"down", rfl⟩))
    (Or.inr (Or.inr ⟨429, ⟨none⟩, rfl, by norm_num⟩))

end AppMonitor
